import Mathlib
set_option maxHeartbeats 1000000
set_option maxRecDepth 4000
namespace LightBnB

/-- Scalar value bound as a positional SQL argument (string, integer, decimal,
or null/undefined), mirroring the value kinds the data-access layer passes to
`pool.query`. -/
inductive SqlVal where
  | vStr (s : String)
  | vInt (n : Int)
  | vRat (q : Rat)
  | vNull
deriving DecidableEq

/-- Output of a query builder: the SQL text with positional placeholders and the
ordered sequence of bound arguments handed to the driver. -/
structure GeneratedQuery where
  text : String
  args : List SqlVal
deriving DecidableEq

/-- The options object consumed by `getAllProperties` (database.js lines
124-177).  `none` models an absent field of the JavaScript object. -/
structure Options where
  city : Option String := none
  owner_id : Option Int := none
  minimum_price_per_night : Option Int := none
  maximum_price_per_night : Option Int := none
  minimum_rating : Option Rat := none
deriving DecidableEq

/-- JavaScript truthiness of an optional string field: absent and the empty
string are falsy, every other string is truthy. -/
def tStr : Option String → Bool
  | none => false
  | some s => decide (s ≠ "")

/-- JavaScript truthiness of an optional integer field: absent and 0 are falsy. -/
def tInt : Option Int → Bool
  | none => false
  | some n => decide (n ≠ 0)

/-- JavaScript truthiness of an optional decimal field: absent and 0 are falsy. -/
def tRat : Option Rat → Bool
  | none => false
  | some q => decide (q ≠ 0)

/-- JavaScript `Array.prototype.join(sep)`: the empty array joins to the empty
string, a singleton to its element, otherwise elements separated by `sep`. -/
def jsJoin (sep : String) : List String → String
  | [] => ""
  | [x] => x
  | x :: y :: xs => x ++ sep ++ jsJoin sep (y :: xs)

/-- The fixed opening clause of the property search (database.js lines 129-131),
with the template literal's embedded newlines and indentation. -/
def basePropertyQuery : String :=
  "SELECT properties.*, AVG(rating) AS average_rating\n  FROM properties\n  LEFT JOIN property_reviews ON properties.id = property_id "

/-- Shallow embedding of `getAllProperties` (database.js lines 124-177), the
part that assembles `queryString` and `queryParams` before `pool.query`.  Each
`if (options.x)` guard participates exactly when the field is
JavaScript-truthy; as in the source, a value is pushed onto the parameter list
first and the placeholder number is the parameter list's length after the
push. -/
def getAllProperties (options : Options) (limit : Int) : GeneratedQuery :=
  let queryParams : List SqlVal := []
  let queryString := basePropertyQuery
  let whereQuery : List String := []
  let queryParams :=
    if tStr options.city then
      queryParams ++ [SqlVal.vStr ("%" ++ options.city.getD "" ++ "%")]
    else queryParams
  let whereQuery :=
    if tStr options.city then
      whereQuery ++ ["city LIKE $" ++ Nat.repr queryParams.length ++ " "]
    else whereQuery
  let queryParams :=
    if tInt options.owner_id then
      queryParams ++ [SqlVal.vInt (options.owner_id.getD 0)]
    else queryParams
  let whereQuery :=
    if tInt options.owner_id then
      whereQuery ++ ["owner_id = $" ++ Nat.repr queryParams.length ++ " "]
    else whereQuery
  let queryParams :=
    if tInt options.minimum_price_per_night then
      queryParams ++ [SqlVal.vInt (options.minimum_price_per_night.getD 0 * 100)]
    else queryParams
  let whereQuery :=
    if tInt options.minimum_price_per_night then
      whereQuery ++ ["(cost_per_night) >= $" ++ Nat.repr queryParams.length ++ " "]
    else whereQuery
  let queryParams :=
    if tInt options.maximum_price_per_night then
      queryParams ++ [SqlVal.vInt (options.maximum_price_per_night.getD 0 * 100)]
    else queryParams
  let whereQuery :=
    if tInt options.maximum_price_per_night then
      whereQuery ++ ["(cost_per_night) <= $" ++ Nat.repr queryParams.length ++ " "]
    else whereQuery
  let queryString :=
    if whereQuery.length > 0 then queryString ++ "WHERE " ++ jsJoin "AND " whereQuery
    else queryString
  let queryString := queryString ++ "GROUP BY properties.id "
  let queryParams :=
    if tRat options.minimum_rating then
      queryParams ++ [SqlVal.vRat (options.minimum_rating.getD 0)]
    else queryParams
  let queryString :=
    if tRat options.minimum_rating then
      queryString ++ "HAVING AVG(rating) > $" ++ Nat.repr queryParams.length ++ " "
    else queryString
  let queryParams := queryParams ++ [SqlVal.vInt limit]
  let queryString := queryString ++ "ORDER BY cost_per_night\n  LIMIT $" ++ Nat.repr queryParams.length ++ ";"
  { text := queryString, args := queryParams }

/-- JavaScript `property[key]` on a record modelled as an ordered key/value
list: the value stored under the first occurrence of `key`; `vNull` stands for
`undefined` when the key is missing (unreachable when the key list comes from
the record itself). -/
def jsGet (property : List (String × SqlVal)) (key : String) : SqlVal :=
  match property.find? (fun kv => kv.1 == key) with
  | some kv => kv.2
  | none => SqlVal.vNull

/-- JavaScript `String.prototype.slice(0, -2)`: drop the final two characters
(the whole string when it is shorter than two characters). -/
def jsSliceDropLastTwo (s : String) : String :=
  List.asString s.data.dropLast.dropLast

/-- One iteration of the `for (let key of keys)` loop of `addProperty`
(database.js lines 206-209): push `property[key]` onto the parameter list and
append `$<new length>, ` to `valueIndex`. -/
def addPropertyStep (property : List (String × SqlVal))
    (acc : List SqlVal × String) (key : String) : List SqlVal × String :=
  let queryParams := acc.1 ++ [jsGet property key]
  (queryParams, acc.2 ++ "$" ++ Nat.repr queryParams.length ++ ", ")

/-- Shallow embedding of `addProperty` (database.js lines 194-213), the part
that assembles `queryString` and `queryParams` before `pool.query`.  The input
record is an ordered key/value list, matching `Object.keys` iteration order of
the JavaScript object. -/
def addProperty (property : List (String × SqlVal)) : GeneratedQuery :=
  let keys := property.map Prod.fst
  let queryString := "INSERT INTO properties (" ++ jsJoin ", " keys ++ ") \n  VALUES ("
  let loop := keys.foldl (addPropertyStep property) ([], "")
  let queryParams := loop.1
  let valueIndex := loop.2
  let queryString := queryString ++ jsSliceDropLastTwo valueIndex ++ ")\n  RETURNING *;"
  { text := queryString, args := queryParams }

/-- A result row delivered by the driver: an ordered column/value mapping. -/
abbrev Row : Type := List (String × SqlVal)

/-- Settlement of the promise chain of `getAllProperties` (database.js lines
178-186): on a successful driver result the rows are returned with nothing
logged; on a driver error the `.catch` handler logs `err.message` to the
console and the call resolves with `undefined` (`none`).  The result pairs the
resolved value with the list of console log lines. -/
def getAllPropertiesSettle (result : Except String (List Row)) :
    Option (List Row) × List String :=
  match result with
  | Except.ok rows => (some rows, [])
  | Except.error msg => (none, [msg])

/-- Settlement of the promise chain of `addProperty` (database.js lines
215-223): same shape as `getAllPropertiesSettle`. -/
def addPropertySettle (result : Except String (List Row)) :
    Option (List Row) × List String :=
  match result with
  | Except.ok rows => (some rows, [])
  | Except.error msg => (none, [msg])

/-- Settlement of the promise chain of `getUserWithEmail` (database.js lines
26-37): on success the first row (or `undefined` when there is none) is
returned with nothing logged; on a driver error the `.catch` handler logs
`err.message` and the call resolves with `undefined` (outer `none`). -/
def getUserWithEmailSettle (result : Except String (List Row)) :
    Option (Option Row) × List String :=
  match result with
  | Except.ok rows => (some rows.head?, [])
  | Except.error msg => (none, [msg])

/-- One when the city filter is truthy, else 0. -/
def nCity (o : Options) : Nat := if tStr o.city then 1 else 0

/-- One when the owner filter is truthy, else 0. -/
def nOwner (o : Options) : Nat := if tInt o.owner_id then 1 else 0

/-- One when the minimum-price filter is truthy, else 0. -/
def nMinPrice (o : Options) : Nat := if tInt o.minimum_price_per_night then 1 else 0

/-- One when the maximum-price filter is truthy, else 0. -/
def nMaxPrice (o : Options) : Nat := if tInt o.maximum_price_per_night then 1 else 0

/-- Number of WHERE predicates generated for the options object. -/
def nWhere (o : Options) : Nat := nCity o + nOwner o + nMinPrice o + nMaxPrice o

/-- One when the minimum-rating filter is truthy, else 0. -/
def nRating (o : Options) : Nat := if tRat o.minimum_rating then 1 else 0

/-- The WHERE predicates generated for the options object, in the source's
fixed order (city, owner, minimum price, maximum price), with the placeholder
number each predicate receives. -/
def whereList (o : Options) : List String :=
  (if tStr o.city then ["city LIKE $1 "] else []) ++
  (if tInt o.owner_id then ["owner_id = $" ++ Nat.repr (nCity o + 1) ++ " "] else []) ++
  (if tInt o.minimum_price_per_night then
    ["(cost_per_night) >= $" ++ Nat.repr (nCity o + nOwner o + 1) ++ " "] else []) ++
  (if tInt o.maximum_price_per_night then
    ["(cost_per_night) <= $" ++ Nat.repr (nCity o + nOwner o + nMinPrice o + 1) ++ " "] else [])

/-- The bound arguments generated for the WHERE predicates, in the same order. -/
def whereArgs (o : Options) : List SqlVal :=
  (if tStr o.city then [SqlVal.vStr ("%" ++ o.city.getD "" ++ "%")] else []) ++
  (if tInt o.owner_id then [SqlVal.vInt (o.owner_id.getD 0)] else []) ++
  (if tInt o.minimum_price_per_night then
    [SqlVal.vInt (o.minimum_price_per_night.getD 0 * 100)] else []) ++
  (if tInt o.maximum_price_per_night then
    [SqlVal.vInt (o.maximum_price_per_night.getD 0 * 100)] else [])

/-- Numeric value of a run of decimal digit characters, most significant
first. -/
def digitsToNat (ds : List Char) : Nat :=
  ds.foldl (fun n c => 10 * n + (c.toNat - 48)) 0

/-- State of the placeholder lexer: scanning ordinary text, having just seen a
dollar sign, or inside a digit run whose accumulated value is `v`. -/
inductive ScanState where
  | normal
  | afterDollar
  | inDigits (v : Nat)
deriving DecidableEq

/-- One-pass lexer for positional placeholders: every `$` immediately followed
by a non-empty run of decimal digits contributes the run's numeric value to
the output, in order of occurrence in the stream. -/
def scanRun : ScanState → List Char → List Nat
  | ScanState.normal, [] => []
  | ScanState.afterDollar, [] => []
  | ScanState.inDigits v, [] => [v]
  | ScanState.normal, c :: rest =>
    if c = '$' then scanRun ScanState.afterDollar rest
    else scanRun ScanState.normal rest
  | ScanState.afterDollar, c :: rest =>
    if c.isDigit then scanRun (ScanState.inDigits (c.toNat - 48)) rest
    else if c = '$' then scanRun ScanState.afterDollar rest
    else scanRun ScanState.normal rest
  | ScanState.inDigits v, c :: rest =>
    if c.isDigit then scanRun (ScanState.inDigits (10 * v + (c.toNat - 48))) rest
    else if c = '$' then v :: scanRun ScanState.afterDollar rest
    else v :: scanRun ScanState.normal rest

/-- Positional placeholder indices appearing in an SQL text, in order of
occurrence. -/
def scanPlaceholders (s : String) : List Nat :=
  scanRun ScanState.normal s.data

/-- Decimal digit characters of a natural number, most significant first: the
functional specification of `Nat.repr`. -/
def decDigits (n : Nat) : List Char :=
  if _h10 : n < 10 then [Nat.digitChar n]
  else decDigits (n / 10) ++ [Nat.digitChar (n % 10)]
termination_by n
decreasing_by
  exact Nat.div_lt_self (by omega) (by omega)

/-- The `valueIndex` string produced by the `addProperty` loop when `start`
parameters were already pushed and `n` keys remain: the fragments
`$start+1, $start+2, ..., $start+n, `, each with a trailing comma and space. -/
def valueIndexFrom (start : Nat) : Nat → String
  | 0 => ""
  | n + 1 => "$" ++ Nat.repr (start + 1) ++ ", " ++ valueIndexFrom (start + 1) n

/-- Does the predicate hold of some suffix of the list (including the list
itself and the empty suffix)? -/
def suffixAny (f : List Char → Bool) : List Char → Bool
  | [] => f []
  | c :: s => f (c :: s) || suffixAny f s

/-- SQL `LIKE` pattern matching over character lists, as specified by standard
SQL and implemented by PostgreSQL for the `LIKE` keyword contained in the
generated city predicate: `%` matches any (possibly empty) character
sequence, `_` matches exactly one character, and any other pattern character
matches exactly itself, case-sensitively. -/
def sqlLike : List Char → List Char → Bool
  | [] => fun s => s.isEmpty
  | '%' :: ps => suffixAny (sqlLike ps)
  | '_' :: ps => fun s =>
    match s with
    | [] => false
    | _ :: s2 => sqlLike ps s2
  | c :: ps => fun s =>
    match s with
    | [] => false
    | c2 :: s2 => c == c2 && sqlLike ps s2

/-- Case-insensitive LIKE matching, the behavior the specification attributes
to the generated city predicate: pattern and subject are compared after
lowercasing both. -/
def sqlILike (p s : List Char) : Bool :=
  sqlLike (p.map Char.toLower) (s.map Char.toLower)

theorem getAllProperties_char (o : Options) (l : Int) :
    getAllProperties o l =
      { text := basePropertyQuery ++
          (if whereList o = [] then "" else "WHERE " ++ jsJoin "AND " (whereList o)) ++
          "GROUP BY properties.id " ++
          (if tRat o.minimum_rating then
            "HAVING AVG(rating) > $" ++ Nat.repr (nWhere o + 1) ++ " " else "") ++
          ("ORDER BY cost_per_night\n  LIMIT $" ++ Nat.repr (nWhere o + nRating o + 1) ++ ";"),
        args := whereArgs o ++
          (if tRat o.minimum_rating then [SqlVal.vRat (o.minimum_rating.getD 0)] else []) ++
          [SqlVal.vInt l] } := by
  cases hc : tStr o.city <;> cases ho : tInt o.owner_id <;>
    cases hmi : tInt o.minimum_price_per_night <;>
    cases hma : tInt o.maximum_price_per_night <;>
    cases hr : tRat o.minimum_rating <;>
      simp [getAllProperties, whereList, whereArgs, nWhere, nCity, nOwner, nMinPrice,
        nMaxPrice, nRating, hc, ho, hmi, hma, hr, jsJoin, String.append_assoc] <;> decide

theorem toDigitsCore_eq_decDigits (fuel : Nat) :
    ∀ n : Nat, n < fuel → ∀ ds : List Char,
      Nat.toDigitsCore 10 fuel n ds = decDigits n ++ ds := by
  induction fuel with
  | zero => omega
  | succ f ih =>
    intro n hn ds
    by_cases h10 : n < 10
    · have hdiv : n / 10 = 0 := Nat.div_eq_of_lt h10
      have hmod : n % 10 = n := Nat.mod_eq_of_lt h10
      rw [Nat.toDigitsCore, decDigits]
      simp [hdiv, h10, hmod]
    · have hpos : 0 < n / 10 := Nat.div_pos (by omega) (by omega)
      have hlt : n / 10 < f := by
        have hdl : n / 10 < n := Nat.div_lt_self (by omega) (by omega)
        omega
      rw [Nat.toDigitsCore, decDigits]
      simp only [hpos.ne', if_false, dif_neg h10]
      rw [ih (n / 10) hlt]
      simp [List.append_assoc]

theorem repr_data_eq_decDigits (n : Nat) : (Nat.repr n).data = decDigits n := by
  have h := toDigitsCore_eq_decDigits (n + 1) n (by omega) []
  simp only [Nat.repr, Nat.toDigits]
  rw [h]
  simp [List.asString]

theorem digitChar_isDigit (m : Nat) (h : m < 10) : (Nat.digitChar m).isDigit = true := by
  interval_cases m <;> decide

theorem digitChar_toNat (m : Nat) (h : m < 10) : (Nat.digitChar m).toNat - 48 = m := by
  interval_cases m <;> decide

theorem digitsToNat_append_singleton (a : List Char) (c : Char) :
    digitsToNat (a ++ [c]) = 10 * digitsToNat a + (c.toNat - 48) := by
  simp [digitsToNat, List.foldl_append]

theorem decDigits_spec (n : Nat) :
    (∀ c ∈ decDigits n, c.isDigit = true) ∧ digitsToNat (decDigits n) = n ∧
      decDigits n ≠ [] := by
  induction n using Nat.strong_induction_on with
  | _ n ih =>
    by_cases h10 : n < 10
    · rw [decDigits, dif_pos h10]
      refine ⟨?_, ?_, by simp⟩
      · intro c hc
        simp at hc
        subst hc
        exact digitChar_isDigit n h10
      · have := digitChar_toNat n h10
        simp [digitsToNat]
        omega
    · obtain ⟨ih1, ih2, ih3⟩ := ih (n / 10) (Nat.div_lt_self (by omega) (by omega))
      rw [decDigits, dif_neg h10]
      have hm : n % 10 < 10 := Nat.mod_lt _ (by omega)
      refine ⟨?_, ?_, by simp⟩
      · intro c hc
        rcases List.mem_append.1 hc with hc | hc
        · exact ih1 c hc
        · simp at hc
          subst hc
          exact digitChar_isDigit _ hm
      · rw [digitsToNat_append_singleton, ih2, digitChar_toNat _ hm]
        omega

theorem repr_data_digits (n : Nat) : ∀ c ∈ (Nat.repr n).data, c.isDigit = true := by
  rw [repr_data_eq_decDigits]
  exact (decDigits_spec n).1

theorem digitsToNat_repr (n : Nat) : digitsToNat (Nat.repr n).data = n := by
  rw [repr_data_eq_decDigits]
  exact (decDigits_spec n).2.1

theorem repr_data_ne_nil (n : Nat) : (Nat.repr n).data ≠ [] := by
  rw [repr_data_eq_decDigits]
  exact (decDigits_spec n).2.2

theorem scanRun_no_dollar (l : List Char) (h : '$' ∉ l) :
    scanRun ScanState.normal l = [] := by
  induction l with
  | nil => rfl
  | cons c rest ih =>
    simp only [List.mem_cons, not_or] at h
    have hc : ¬ c = '$' := fun hh => h.1 hh.symm
    rw [scanRun]
    simp [hc, ih h.2]

theorem scanRun_append_no_dollar (l₁ l₂ : List Char) (h : '$' ∉ l₁) :
    scanRun ScanState.normal (l₁ ++ l₂) = scanRun ScanState.normal l₂ := by
  induction l₁ with
  | nil => simp
  | cons c rest ih =>
    simp only [List.mem_cons, not_or] at h
    have hc : ¬ c = '$' := fun hh => h.1 hh.symm
    rw [List.cons_append, scanRun]
    simp [hc, ih h.2]

theorem head_not_digit_of_takeWhile_nil (c : Char) (rest : List Char)
    (ht : (c :: rest).takeWhile Char.isDigit = []) : c.isDigit = false := by
  rw [List.takeWhile_cons] at ht
  by_cases h : c.isDigit
  · simp [h] at ht
  · simpa using h

theorem scanRun_inDigits_emit (v : Nat) (t : List Char)
    (ht : t.takeWhile Char.isDigit = []) :
    scanRun (ScanState.inDigits v) t = v :: scanRun ScanState.normal t := by
  cases t with
  | nil => rfl
  | cons c rest =>
    have hc : c.isDigit = false := head_not_digit_of_takeWhile_nil c rest ht
    by_cases hd : c = '$'
    · subst hd
      rw [scanRun, scanRun]
      simp [hc]
    · rw [scanRun, scanRun]
      simp [hc, hd]

theorem scanRun_inDigits_accum (ds : List Char) (hds : ∀ c ∈ ds, c.isDigit = true) :
    ∀ (v : Nat) (t : List Char),
      scanRun (ScanState.inDigits v) (ds ++ t) =
        scanRun (ScanState.inDigits (ds.foldl (fun n c => 10 * n + (c.toNat - 48)) v)) t := by
  induction ds with
  | nil => intro v t; simp
  | cons d ds' ih =>
    intro v t
    have hd := hds d (by simp)
    rw [List.cons_append, scanRun]
    simp only [hd, if_true, List.foldl_cons]
    exact ih (fun c hc => hds c (by simp [hc])) _ t

theorem scanRun_dollar (ds t : List Char) (hne : ds ≠ [])
    (hds : ∀ c ∈ ds, c.isDigit = true) (ht : t.takeWhile Char.isDigit = []) :
    scanRun ScanState.normal ('$' :: (ds ++ t)) =
      digitsToNat ds :: scanRun ScanState.normal t := by
  cases ds with
  | nil => exact absurd rfl hne
  | cons d ds' =>
    have hd := hds d (by simp)
    rw [scanRun, if_pos rfl, List.cons_append, scanRun]
    simp only [hd, if_true]
    rw [scanRun_inDigits_accum ds' (fun c hc => hds c (by simp [hc])) _ t,
      scanRun_inDigits_emit _ _ ht]
    congr 1
    simp [digitsToNat, List.foldl_cons]

theorem addProperty_loop (property : List (String × SqlVal)) :
    ∀ (keys : List String) (ps : List SqlVal) (vi : String),
      keys.foldl (addPropertyStep property) (ps, vi) =
        (ps ++ keys.map (jsGet property), vi ++ valueIndexFrom ps.length keys.length) := by
  intro keys
  induction keys with
  | nil =>
    intro ps vi
    simp [valueIndexFrom]
  | cons k ks ih =>
    intro ps vi
    rw [List.foldl_cons]
    have hstep : addPropertyStep property (ps, vi) k =
        (ps ++ [jsGet property k],
          vi ++ "$" ++ Nat.repr (ps.length + 1) ++ ", ") := by
      simp [addPropertyStep]
    rw [hstep, ih]
    simp [valueIndexFrom, String.append_assoc, List.append_assoc]

theorem addProperty_char (property : List (String × SqlVal)) :
    addProperty property =
      { text := "INSERT INTO properties (" ++ jsJoin ", " (property.map Prod.fst) ++
          ") \n  VALUES (" ++ jsSliceDropLastTwo (valueIndexFrom 0 property.length) ++
          ")\n  RETURNING *;",
        args := (property.map Prod.fst).map (jsGet property) } := by
  simp only [addProperty]
  rw [addProperty_loop]
  simp [String.append_assoc]

theorem asString_data (x : String) : List.asString x.data = x := rfl

theorem jsSlice_append_comma (x : String) : jsSliceDropLastTwo (x ++ ", ") = x := by
  have hcomma : (", " : String).data = [','] ++ [' '] := rfl
  have h : (x ++ ", ").data = (x.data ++ [',']) ++ [' '] := by
    rw [String.data_append, hcomma, List.append_assoc]
  rw [jsSliceDropLastTwo, h, List.dropLast_concat, List.dropLast_concat, asString_data]

theorem valueIndexFrom_eq_chop (n : Nat) : ∀ s : Nat,
    valueIndexFrom s (n + 1) =
      jsSliceDropLastTwo (valueIndexFrom s (n + 1)) ++ ", " := by
  induction n with
  | zero =>
    intro s
    have h : valueIndexFrom s 1 = ("$" ++ Nat.repr (s + 1)) ++ ", " := by
      rw [valueIndexFrom, valueIndexFrom]
      simp [String.append_assoc]
    rw [h, jsSlice_append_comma]
  | succ m ih =>
    intro s
    have h : valueIndexFrom s (m + 2) =
        ("$" ++ Nat.repr (s + 1) ++ ", " ++
          jsSliceDropLastTwo (valueIndexFrom (s + 1) (m + 1))) ++ ", " := by
      rw [valueIndexFrom]
      conv_lhs => rw [ih (s + 1)]
      simp [String.append_assoc]
    rw [h, jsSlice_append_comma]

theorem chop_valueIndexFrom_one (s : Nat) :
    jsSliceDropLastTwo (valueIndexFrom s 1) = "$" ++ Nat.repr (s + 1) := by
  have h : valueIndexFrom s 1 = ("$" ++ Nat.repr (s + 1)) ++ ", " := by
    rw [valueIndexFrom, valueIndexFrom]
    simp [String.append_assoc]
  rw [h, jsSlice_append_comma]

theorem chop_valueIndexFrom_step (s m : Nat) :
    jsSliceDropLastTwo (valueIndexFrom s (m + 2)) =
      "$" ++ Nat.repr (s + 1) ++ ", " ++
        jsSliceDropLastTwo (valueIndexFrom (s + 1) (m + 1)) := by
  have h : valueIndexFrom s (m + 2) =
      ("$" ++ Nat.repr (s + 1) ++ ", " ++
        jsSliceDropLastTwo (valueIndexFrom (s + 1) (m + 1))) ++ ", " := by
    rw [valueIndexFrom]
    conv_lhs => rw [valueIndexFrom_eq_chop m (s + 1)]
    simp [String.append_assoc]
  rw [h, jsSlice_append_comma]

theorem scanRun_chopped (n : Nat) :
    ∀ (s : Nat) (t : List Char), '$' ∉ t → t.takeWhile Char.isDigit = [] →
      scanRun ScanState.normal
          ((jsSliceDropLastTwo (valueIndexFrom s (n + 1))).data ++ t) =
        List.range' (s + 1) (n + 1) := by
  induction n with
  | zero =>
    intro s t hd htk
    rw [chop_valueIndexFrom_one]
    have hdata : ("$" ++ Nat.repr (s + 1)).data ++ t =
        '$' :: ((Nat.repr (s + 1)).data ++ t) := by
      have hds : ("$" : String).data = ['$'] := rfl
      rw [String.data_append, hds, List.append_assoc]
      rfl
    rw [hdata, scanRun_dollar _ _ (repr_data_ne_nil _) (repr_data_digits _) htk,
      digitsToNat_repr, scanRun_no_dollar t hd]
    simp [List.range']
  | succ m ih =>
    intro s t hd htk
    rw [chop_valueIndexFrom_step]
    have hdata : ("$" ++ Nat.repr (s + 1) ++ ", " ++
          jsSliceDropLastTwo (valueIndexFrom (s + 1) (m + 1))).data ++ t =
        '$' :: ((Nat.repr (s + 1)).data ++
          ([',', ' '] ++
            ((jsSliceDropLastTwo (valueIndexFrom (s + 1) (m + 1))).data ++ t))) := by
      have hds : ("$" : String).data = ['$'] := rfl
      have hcs : (", " : String).data = [',', ' '] := rfl
      simp only [String.data_append, hds, hcs, List.append_assoc]
      rfl
    rw [hdata]
    have htk2 : ([',', ' '] ++
        ((jsSliceDropLastTwo (valueIndexFrom (s + 1) (m + 1))).data ++ t)).takeWhile
          Char.isDigit = [] := by
      have hcd : (',').isDigit = false := by decide
      rw [List.cons_append]
      simp [List.takeWhile_cons, hcd]
    rw [scanRun_dollar _ _ (repr_data_ne_nil _) (repr_data_digits _) htk2,
      digitsToNat_repr]
    rw [scanRun_append_no_dollar [',', ' '] _ (by decide)]
    rw [ih (s + 1) t hd htk]
    simp [List.range'_succ]

theorem jsJoin_no_dollar (sep : String) (hsep : '$' ∉ sep.data) :
    ∀ l : List String, (∀ x ∈ l, '$' ∉ x.data) → '$' ∉ (jsJoin sep l).data := by
  intro l
  induction l with
  | nil =>
    intro _
    rw [jsJoin]
    exact (by decide : '$' ∉ ("" : String).data)
  | cons x xs ih =>
    intro h
    cases xs with
    | nil =>
      rw [jsJoin]
      exact h x (by simp)
    | cons y ys =>
      rw [jsJoin, String.data_append, String.data_append]
      simp only [List.mem_append, not_or]
      exact ⟨⟨h x (by simp), hsep⟩, ih (fun z hz => h z (by simp [hz]))⟩

theorem scanPlaceholders_addProperty (property : List (String × SqlVal))
    (hkeys : ∀ kv ∈ property, '$' ∉ kv.1.data) :
    scanPlaceholders (addProperty property).text =
      List.range' 1 (addProperty property).args.length := by
  cases property with
  | nil => decide
  | cons kv rest =>
    rw [addProperty_char]
    have hk : ∀ x ∈ (kv :: rest).map Prod.fst, '$' ∉ x.data := by
      intro x hx
      obtain ⟨kv2, hkv2, rfl⟩ := List.mem_map.1 hx
      exact hkeys kv2 hkv2
    have hpre : '$' ∉ ("INSERT INTO properties (" ++
        jsJoin ", " ((kv :: rest).map Prod.fst) ++ ") \n  VALUES (").data := by
      rw [String.data_append, String.data_append]
      simp only [List.mem_append, not_or]
      exact ⟨⟨by decide, jsJoin_no_dollar ", " (by decide) _ hk⟩, by decide⟩
    have hstruct : (("INSERT INTO properties (" ++
          jsJoin ", " ((kv :: rest).map Prod.fst) ++ ") \n  VALUES (") ++
          jsSliceDropLastTwo (valueIndexFrom 0 ((kv :: rest).length)) ++
          ")\n  RETURNING *;").data =
        ("INSERT INTO properties (" ++
          jsJoin ", " ((kv :: rest).map Prod.fst) ++ ") \n  VALUES (").data ++
          ((jsSliceDropLastTwo (valueIndexFrom 0 ((kv :: rest).length))).data ++
            (")\n  RETURNING *;").data) := by
      simp [String.data_append, List.append_assoc]
    rw [scanPlaceholders, hstruct, scanRun_append_no_dollar _ _ hpre]
    have hlen : (kv :: rest).length = rest.length + 1 := rfl
    rw [hlen, scanRun_chopped rest.length 0 _ (by decide) (by decide)]
    simp [List.length_map]

theorem scanPlaceholders_getAllProperties (o : Options) (l : Int) :
    scanPlaceholders (getAllProperties o l).text =
      List.range' 1 (getAllProperties o l).args.length := by
  cases hc : tStr o.city <;> cases ho : tInt o.owner_id <;>
    cases hmi : tInt o.minimum_price_per_night <;>
    cases hma : tInt o.maximum_price_per_night <;>
    cases hr : tRat o.minimum_rating <;>
      simp [getAllProperties, hc, ho, hmi, hma, hr, jsJoin, String.append_assoc] <;>
      decide

theorem suffixAny_of_holds (f : List Char → Bool) (s : List Char) (h : f s = true) :
    suffixAny f s = true := by
  cases s with
  | nil => simpa [suffixAny] using h
  | cons c s2 => simp [suffixAny, h]

theorem suffixAny_suffix (f : List Char → Bool) :
    ∀ (u s : List Char), f s = true → suffixAny f (u ++ s) = true := by
  intro u
  induction u with
  | nil =>
    intro s h
    simpa using suffixAny_of_holds f s h
  | cons c u2 ih =>
    intro s h
    rw [List.cons_append, suffixAny]
    simp [ih s h]

theorem sqlLike_trailing (c : List Char) : ∀ v : List Char,
    sqlLike (c ++ ['%']) (c ++ v) = true := by
  induction c with
  | nil =>
    intro v
    have hbase : sqlLike [] [] = true := by rw [sqlLike]; rfl
    have h := suffixAny_suffix (sqlLike []) v [] hbase
    rw [List.append_nil] at h
    rw [List.nil_append, List.nil_append, sqlLike]
    exact h
  | cons c0 cs ih =>
    intro v
    by_cases h0 : c0 = '%'
    · subst h0
      rw [List.cons_append, List.cons_append, sqlLike]
      have h : '%' :: (cs ++ v) = ['%'] ++ (cs ++ v) := rfl
      rw [h]
      exact suffixAny_suffix _ ['%'] (cs ++ v) (ih v)
    · by_cases h1 : c0 = '_'
      · subst h1
        rw [List.cons_append, List.cons_append]
        simp only [sqlLike]
        exact ih v
      · rw [List.cons_append, List.cons_append]
        simp [sqlLike, h0, h1, ih v]

/-- A wildcard-wrapped pattern matches any subject in which the wrapped text
occurs contiguously: the substring-match direction of the city predicate. -/
theorem sqlLike_wrap_match (c u v : List Char) :
    sqlLike ('%' :: (c ++ ['%'])) (u ++ (c ++ v)) = true := by
  rw [sqlLike]
  exact suffixAny_suffix _ u (c ++ v) (sqlLike_trailing c v)

theorem jsJoin_head (sep x : String) (xs : List String) :
    ∃ t : List Char, (jsJoin sep (x :: xs)).data = x.data ++ t := by
  cases xs with
  | nil => exact ⟨[], by rw [jsJoin]; simp⟩
  | cons y ys =>
    refine ⟨sep.data ++ (jsJoin sep (y :: ys)).data, ?_⟩
    rw [jsJoin, String.data_append, String.data_append, List.append_assoc]

theorem jsJoin_mem_contained (sep x : String) :
    ∀ l : List String, x ∈ l → x.data <:+: (jsJoin sep l).data := by
  intro l
  induction l with
  | nil =>
    intro h
    exact absurd h (List.not_mem_nil x)
  | cons y ys ih =>
    intro h
    rcases List.mem_cons.1 h with rfl | h2
    · obtain ⟨t, ht⟩ := jsJoin_head sep x ys
      exact ⟨[], t, by rw [ht]; rfl⟩
    · cases ys with
      | nil => exact absurd h2 (List.not_mem_nil x)
      | cons z zs =>
        obtain ⟨s, t, hst⟩ := ih h2
        refine ⟨(y.data ++ sep.data) ++ s, t, ?_⟩
        rw [jsJoin, String.data_append, String.data_append, ← hst]
        simp [List.append_assoc]

theorem whereJoin_infix_text (o : Options) (l : Int) (h : ¬ whereList o = []) :
    (jsJoin "AND " (whereList o)).data <:+: (getAllProperties o l).text.data := by
  have ht : (getAllProperties o l).text =
      basePropertyQuery ++ ("WHERE " ++ jsJoin "AND " (whereList o)) ++
        "GROUP BY properties.id " ++
        (if tRat o.minimum_rating then
          "HAVING AVG(rating) > $" ++ Nat.repr (nWhere o + 1) ++ " " else "") ++
        ("ORDER BY cost_per_night\n  LIMIT $" ++
          Nat.repr (nWhere o + nRating o + 1) ++ ";") := by
    rw [getAllProperties_char, if_neg h]
  rw [ht]
  refine ⟨basePropertyQuery.data ++ ("WHERE " : String).data,
    ("GROUP BY properties.id " : String).data ++
      ((if tRat o.minimum_rating then
        "HAVING AVG(rating) > $" ++ Nat.repr (nWhere o + 1) ++ " " else "") :
          String).data ++
      ("ORDER BY cost_per_night\n  LIMIT $" ++
        Nat.repr (nWhere o + nRating o + 1) ++ ";").data, ?_⟩
  simp [String.data_append, List.append_assoc]

theorem jsGet_cons_self (kv : String × SqlVal) (rest : List (String × SqlVal)) :
    jsGet (kv :: rest) kv.1 = kv.2 := by
  simp [jsGet, List.find?_cons]

theorem jsGet_cons_ne (kv : String × SqlVal) (rest : List (String × SqlVal))
    (k : String) (hne : ¬ k = kv.1) : jsGet (kv :: rest) k = jsGet rest k := by
  have hb : (kv.1 == k) = false := by
    rw [beq_eq_false_iff_ne]
    exact fun he => hne he.symm
  simp [jsGet, List.find?_cons, hb]

theorem jsGet_map_of_nodup :
    ∀ property : List (String × SqlVal), (property.map Prod.fst).Nodup →
      (property.map Prod.fst).map (jsGet property) = property.map Prod.snd := by
  intro property
  induction property with
  | nil =>
    intro _
    rfl
  | cons kv rest ih =>
    intro hnd
    simp only [List.map_cons, List.nodup_cons] at hnd
    simp only [List.map_cons]
    rw [jsGet_cons_self]
    have h2 : (rest.map Prod.fst).map (jsGet (kv :: rest)) =
        (rest.map Prod.fst).map (jsGet rest) := by
      apply List.map_congr_left
      intro k hk
      exact jsGet_cons_ne kv rest k (fun he => hnd.1 (he ▸ hk))
    rw [h2, ih hnd.2]

/-- Claim C1: the SQL text produced by getAllProperties depends only on which
filter fields are present (JavaScript-truthy; a falsy value counts as absent,
as the source's `if (options.x)` guards dictate), never on the field values
or on the limit: any two options objects with the same presence pattern, and
any two limits, yield identical SQL text — every caller-supplied value
travels only in the bound-argument list. -/
theorem claim1_sql_text_depends_only_on_presence (o1 o2 : Options) (l1 l2 : Int)
    (hc : tStr o1.city = tStr o2.city)
    (ho : tInt o1.owner_id = tInt o2.owner_id)
    (hmi : tInt o1.minimum_price_per_night = tInt o2.minimum_price_per_night)
    (hma : tInt o1.maximum_price_per_night = tInt o2.maximum_price_per_night)
    (hr : tRat o1.minimum_rating = tRat o2.minimum_rating) :
    (getAllProperties o1 l1).text = (getAllProperties o2 l2).text := by
  have hw : whereList o1 = whereList o2 := by
    simp only [whereList, nCity, nOwner, nMinPrice, hc, ho, hmi, hma]
  have hn : nWhere o1 = nWhere o2 := by
    simp only [nWhere, nCity, nOwner, nMinPrice, nMaxPrice, hc, ho, hmi, hma]
  have hnr : nRating o1 = nRating o2 := by
    simp only [nRating, hr]
  rw [getAllProperties_char, getAllProperties_char]
  simp only [hw, hn, hnr, hr]

/-- Witness for C1: a filter with city "Vancouver" and limit 10 and a filter
with an injection-shaped city value and limit 50 have the same presence
pattern, so the generated SQL text is identical. -/
theorem claim1_witness :
    (getAllProperties { city := some "Vancouver" } 10).text =
      (getAllProperties { city := some "x% OR 1=1" } 50).text :=
  claim1_sql_text_depends_only_on_presence _ _ _ _
    (by decide) (by decide) (by decide) (by decide) (by decide)

/-- Claim C2 (amended): in every query generated by getAllProperties, and in
every query generated by addProperty from a record none of whose keys
contains the dollar character, the placeholder indices occurring in the SQL
text are exactly 1, 2, ..., N in order of occurrence, where N is the length
of the argument sequence — so the placeholder count equals the argument
count, numbering follows append order, and each index occurs exactly once. -/
theorem claim2_placeholders_match_args :
    (∀ (o : Options) (l : Int),
      scanPlaceholders (getAllProperties o l).text =
        List.range' 1 (getAllProperties o l).args.length) ∧
    (∀ property : List (String × SqlVal),
      (∀ kv ∈ property, '$' ∉ kv.1.data) →
      scanPlaceholders (addProperty property).text =
        List.range' 1 (addProperty property).args.length) :=
  ⟨scanPlaceholders_getAllProperties, scanPlaceholders_addProperty⟩

/-- Counterexample to C2 as frozen: for the record with the single key `x$2`,
addProperty concatenates the key into the SQL text, so the text contains the
placeholder indices [2, 1] while the argument sequence has length 1 — the
placeholder count does not equal the argument count and the indices are not
1..N in append order. -/
theorem claim2_counterexample :
    scanPlaceholders (addProperty [("x$2", SqlVal.vInt 0)]).text ≠
      List.range' 1 (addProperty [("x$2", SqlVal.vInt 0)]).args.length := by
  decide

/-- Witness for C2: the dollar-free two-key record yields placeholders [1, 2]
matching its two arguments. -/
theorem claim2_witness :
    scanPlaceholders
        (addProperty [("name", SqlVal.vStr "Cabin"),
          ("cost_per_night", SqlVal.vInt 5000)]).text =
      List.range' 1
        (addProperty [("name", SqlVal.vStr "Cabin"),
          ("cost_per_night", SqlVal.vInt 5000)]).args.length :=
  claim2_placeholders_match_args.2 _ (by decide)

/-- Claim C3: for every filter, getAllProperties appends exactly one predicate
and one bound argument per present field, in the fixed order city, owner
identifier, minimum price, maximum price; the predicates are joined with AND
behind a single WHERE prefix; and when zero filter fields are present the
text contains no WHERE clause and exactly one bound argument (the limit) is
produced. -/
theorem claim3_predicates_fixed_order (o : Options) (l : Int) :
    ((getAllProperties o l).args =
      (if tStr o.city then [SqlVal.vStr ("%" ++ o.city.getD "" ++ "%")] else []) ++
      (if tInt o.owner_id then [SqlVal.vInt (o.owner_id.getD 0)] else []) ++
      (if tInt o.minimum_price_per_night then
        [SqlVal.vInt (o.minimum_price_per_night.getD 0 * 100)] else []) ++
      (if tInt o.maximum_price_per_night then
        [SqlVal.vInt (o.maximum_price_per_night.getD 0 * 100)] else []) ++
      (if tRat o.minimum_rating then [SqlVal.vRat (o.minimum_rating.getD 0)] else []) ++
      [SqlVal.vInt l]) ∧
    ((getAllProperties o l).text =
      basePropertyQuery ++
        (if whereList o = [] then "" else "WHERE " ++ jsJoin "AND " (whereList o)) ++
        "GROUP BY properties.id " ++
        (if tRat o.minimum_rating then
          "HAVING AVG(rating) > $" ++ Nat.repr (nWhere o + 1) ++ " " else "") ++
        ("ORDER BY cost_per_night\n  LIMIT $" ++
          Nat.repr (nWhere o + nRating o + 1) ++ ";")) ∧
    (tStr o.city = false → tInt o.owner_id = false →
      tInt o.minimum_price_per_night = false → tInt o.maximum_price_per_night = false →
      tRat o.minimum_rating = false →
      (¬ ("WHERE".data <:+: (getAllProperties o l).text.data) ∧
        (getAllProperties o l).args = [SqlVal.vInt l])) := by
  refine ⟨?_, ?_, ?_⟩
  · rw [getAllProperties_char]
    simp [whereArgs, List.append_assoc]
  · rw [getAllProperties_char]
  · intro h1 h2 h3 h4 h5
    constructor
    · rw [getAllProperties_char]
      simp only [whereList, whereArgs, nWhere, nCity, nOwner, nMinPrice, nMaxPrice,
        nRating, h1, h2, h3, h4, h5]
      simp only [Bool.false_eq_true, if_false, List.append_nil, List.nil_append]
      decide
    · rw [getAllProperties_char]
      simp [whereArgs, h1, h2, h3, h4, h5]

/-- Witness for C3's zero-filter branch: the empty options object yields no
WHERE clause and the argument list [10]. -/
theorem claim3_witness :
    ¬ ("WHERE".data <:+: (getAllProperties {} 10).text.data) ∧
      (getAllProperties {} 10).args = [SqlVal.vInt 10] :=
  (claim3_predicates_fixed_order {} 10).2.2 rfl rfl rfl rfl rfl

/-- Claim C8 evaluation: addProperty applied to the record with zero keys
performs no validation and produces the degenerate query
`INSERT INTO properties () VALUES () RETURNING *;` with an empty argument
list, instead of failing synchronously with a ValidationError. -/
theorem claim8_empty_record_produces_query :
    addProperty [] =
      { text := "INSERT INTO properties () \n  VALUES ()\n  RETURNING *;",
        args := [] } := by
  decide

/-- Claim C9 (amended): on a database-level failure, every operation's
`.catch` handler runs inside the data-access layer: it logs `err.message` to
the console and the call resolves with `undefined` — the error is swallowed,
not surfaced to the caller. -/
theorem claim9_errors_logged_and_swallowed (msg : String) :
    getAllPropertiesSettle (Except.error msg) = (none, [msg]) ∧
    addPropertySettle (Except.error msg) = (none, [msg]) ∧
    getUserWithEmailSettle (Except.error msg) = (none, [msg]) :=
  ⟨rfl, rfl, rfl⟩

/-- Counterexample to C9 as frozen: a concrete driver error during
getAllProperties is logged by the layer itself (console output non-empty) and
the call resolves with `undefined` rather than surfacing the failure. -/
theorem claim9_counterexample :
    (getAllPropertiesSettle (Except.error "connection terminated")).2 ≠ [] ∧
    (getAllPropertiesSettle (Except.error "connection terminated")).1 = none := by
  refine ⟨?_, rfl⟩
  decide

/-- Claim C10: a falsy field value — empty city string, owner id 0, minimum
or maximum price 0, minimum rating 0 — is treated exactly as if the field
were absent: the generated query (text and arguments) is identical to the one
for the same options object with the field omitted. -/
theorem claim10_falsy_fields_treated_as_absent (o : Options) (l : Int) :
    getAllProperties { o with city := some "" } l =
      getAllProperties { o with city := none } l ∧
    getAllProperties { o with owner_id := some 0 } l =
      getAllProperties { o with owner_id := none } l ∧
    getAllProperties { o with minimum_price_per_night := some 0 } l =
      getAllProperties { o with minimum_price_per_night := none } l ∧
    getAllProperties { o with maximum_price_per_night := some 0 } l =
      getAllProperties { o with maximum_price_per_night := none } l ∧
    getAllProperties { o with minimum_rating := some 0 } l =
      getAllProperties { o with minimum_rating := none } l :=
  ⟨rfl, rfl, rfl, rfl, rfl⟩

/-- Claim C4 (amended): for every filter with a present city value, the city
predicate emitted is `city LIKE $1` with bound argument the caller's city
string wrapped in `%` wildcards on both sides; under SQL LIKE semantics this
is a case-sensitive substring-style match — any row value containing the city
text with identical letter case matches — not a case-insensitive one. -/
theorem claim4_city_predicate_case_sensitive (o : Options) (l : Int) (c : String)
    (hcity : o.city = some c) (hne : c ≠ "") :
    (getAllProperties o l).args.head? = some (SqlVal.vStr ("%" ++ c ++ "%")) ∧
    ("city LIKE $1 ".data <:+: (getAllProperties o l).text.data) ∧
    (∀ u v : List Char,
      sqlLike ("%" ++ c ++ "%").data (u ++ (c.data ++ v)) = true) := by
  have ht : tStr o.city = true := by
    rw [hcity, tStr]
    simp [hne]
  have htc : tStr (some c) = true := by
    rw [tStr]
    simp [hne]
  refine ⟨?_, ?_, ?_⟩
  · rw [getAllProperties_char]
    simp [whereArgs, ht, hcity, htc]
  · have hmem : "city LIKE $1 " ∈ whereList o := by
      simp [whereList, ht]
    have hne2 : ¬ whereList o = [] := List.ne_nil_of_mem hmem
    exact (jsJoin_mem_contained "AND " _ (whereList o) hmem).trans
      (whereJoin_infix_text o l hne2)
  · intro u v
    have hdata : ("%" ++ c ++ "%").data = '%' :: (c.data ++ ['%']) := by
      rw [String.data_append, String.data_append, List.append_assoc]
      rfl
    rw [hdata]
    exact sqlLike_wrap_match c.data u v

/-- Witness for C4: with city "Paris" the first bound argument is `%Paris%`
and the generated predicate matches a row value containing "Paris" verbatim. -/
theorem claim4_witness :
    (getAllProperties { city := some "Paris" } 10).args.head? =
        some (SqlVal.vStr ("%" ++ "Paris" ++ "%")) ∧
      sqlLike ("%" ++ "Paris" ++ "%").data
        ("xx ".data ++ ("Paris".data ++ " yy".data)) = true := by
  have h := claim4_city_predicate_case_sensitive
    { city := some "Paris" } 10 "Paris" rfl (by decide)
  exact ⟨h.1, h.2.2 "xx ".data " yy".data⟩

/-- Counterexample to C4 as frozen: with city "Paris" the builder emits the
`city LIKE $1` predicate with bound argument `%Paris%`; under SQL LIKE
semantics (PostgreSQL's LIKE is case-sensitive) this fails to match the
case-differing row value "paris", which the case-insensitive comparison the
claim describes would match — so the comparison does not match regardless of
letter case. -/
theorem claim4_counterexample :
    (getAllProperties { city := some "Paris" } 10).args =
        [SqlVal.vStr "%Paris%", SqlVal.vInt 10] ∧
      ("city LIKE $1 ".data <:+:
        (getAllProperties { city := some "Paris" } 10).text.data) ∧
      sqlLike "%Paris%".data "paris".data = false ∧
      sqlILike "%Paris%".data "paris".data = true := by
  exact ⟨by decide, by decide, by decide, by decide⟩

/-- Claim C5: whenever the minimum average rating is present, the generated
text places the HAVING clause — a strict `>` comparison of the aggregated
average rating against a fresh placeholder — directly after the GROUP BY
clause, regardless of whether a WHERE clause exists, and the rating argument
is the last argument before the limit argument. -/
theorem claim5_having_after_group_by (o : Options) (l : Int) (r : Rat)
    (hr : o.minimum_rating = some r) (hr0 : r ≠ 0) :
    (getAllProperties o l).text =
      basePropertyQuery ++
        (if whereList o = [] then "" else "WHERE " ++ jsJoin "AND " (whereList o)) ++
        "GROUP BY properties.id " ++
        ("HAVING AVG(rating) > $" ++ Nat.repr (nWhere o + 1) ++ " ") ++
        ("ORDER BY cost_per_night\n  LIMIT $" ++ Nat.repr (nWhere o + 2) ++ ";") ∧
    (getAllProperties o l).args = whereArgs o ++ [SqlVal.vRat r, SqlVal.vInt l] := by
  have ht : tRat o.minimum_rating = true := by
    rw [hr, tRat]
    simp [hr0]
  have h2 : nWhere o + nRating o + 1 = nWhere o + 2 := by
    have hnr : nRating o = 1 := by simp [nRating, ht]
    omega
  have htr : tRat (some r) = true := by
    rw [tRat]
    simp [hr0]
  rw [getAllProperties_char]
  constructor
  · simp [ht, h2]
  · simp [ht, hr, htr, List.append_assoc]

/-- Witness for C5: with city, owner and minimum rating present, the argument
list is the WHERE arguments followed by the rating argument and then the
limit argument. -/
theorem claim5_witness :
    (getAllProperties
        { city := some "Van", owner_id := some 3, minimum_rating := some 4 } 10).args =
      whereArgs { city := some "Van", owner_id := some 3, minimum_rating := some 4 } ++
        [SqlVal.vRat 4, SqlVal.vInt 10] :=
  (claim5_having_after_group_by
    { city := some "Van", owner_id := some 3, minimum_rating := some 4 }
    10 4 rfl (by decide)).2

/-- Claim C6: when the minimum and/or maximum price is present, the bound
argument for that predicate is exactly the caller-supplied value multiplied
by 100 (dollars converted to cents), placed at the argument position matching
the predicate's placeholder, with `>=` used for the minimum and `<=` for the
maximum. -/
theorem claim6_price_args_times_100 (o : Options) (l : Int) :
    (∀ p : Int, o.minimum_price_per_night = some p → p ≠ 0 →
      (∃ pre post : List SqlVal,
        (getAllProperties o l).args = pre ++ (SqlVal.vInt (p * 100) :: post) ∧
          pre.length = nCity o + nOwner o) ∧
      (("(cost_per_night) >= $" ++ Nat.repr (nCity o + nOwner o + 1) ++ " ").data <:+:
        (getAllProperties o l).text.data)) ∧
    (∀ p : Int, o.maximum_price_per_night = some p → p ≠ 0 →
      (∃ pre post : List SqlVal,
        (getAllProperties o l).args = pre ++ (SqlVal.vInt (p * 100) :: post) ∧
          pre.length = nCity o + nOwner o + nMinPrice o) ∧
      (("(cost_per_night) <= $" ++
          Nat.repr (nCity o + nOwner o + nMinPrice o + 1) ++ " ").data <:+:
        (getAllProperties o l).text.data)) := by
  constructor
  · intro p hp hp0
    have ht : tInt o.minimum_price_per_night = true := by
      rw [hp, tInt]
      simp [hp0]
    have htp : tInt (some p) = true := by
      rw [tInt]
      simp [hp0]
    constructor
    · refine ⟨(if tStr o.city then [SqlVal.vStr ("%" ++ o.city.getD "" ++ "%")] else []) ++
        (if tInt o.owner_id then [SqlVal.vInt (o.owner_id.getD 0)] else []),
        (if tInt o.maximum_price_per_night then
          [SqlVal.vInt (o.maximum_price_per_night.getD 0 * 100)] else []) ++
        ((if tRat o.minimum_rating then [SqlVal.vRat (o.minimum_rating.getD 0)] else []) ++
          [SqlVal.vInt l]), ?_, ?_⟩
      · rw [getAllProperties_char]
        simp [whereArgs, ht, htp, hp, List.append_assoc]
      · cases hc : tStr o.city <;> cases how : tInt o.owner_id <;>
          simp [nCity, nOwner, hc, how]
    · have hmem : ("(cost_per_night) >= $" ++
          Nat.repr (nCity o + nOwner o + 1) ++ " ") ∈ whereList o := by
        simp [whereList, ht]
      exact (jsJoin_mem_contained "AND " _ (whereList o) hmem).trans
        (whereJoin_infix_text o l (List.ne_nil_of_mem hmem))
  · intro p hp hp0
    have ht : tInt o.maximum_price_per_night = true := by
      rw [hp, tInt]
      simp [hp0]
    have htp : tInt (some p) = true := by
      rw [tInt]
      simp [hp0]
    constructor
    · refine ⟨(if tStr o.city then [SqlVal.vStr ("%" ++ o.city.getD "" ++ "%")] else []) ++
        (if tInt o.owner_id then [SqlVal.vInt (o.owner_id.getD 0)] else []) ++
        (if tInt o.minimum_price_per_night then
          [SqlVal.vInt (o.minimum_price_per_night.getD 0 * 100)] else []),
        ((if tRat o.minimum_rating then [SqlVal.vRat (o.minimum_rating.getD 0)] else []) ++
          [SqlVal.vInt l]), ?_, ?_⟩
      · rw [getAllProperties_char]
        simp [whereArgs, ht, htp, hp, List.append_assoc]
      · cases hc : tStr o.city <;> cases how : tInt o.owner_id <;>
          cases hmi : tInt o.minimum_price_per_night <;>
          simp [nCity, nOwner, nMinPrice, hc, how, hmi]
    · have hmem : ("(cost_per_night) <= $" ++
          Nat.repr (nCity o + nOwner o + nMinPrice o + 1) ++ " ") ∈ whereList o := by
        simp [whereList, ht]
      exact (jsJoin_mem_contained "AND " _ (whereList o) hmem).trans
        (whereJoin_infix_text o l (List.ne_nil_of_mem hmem))

/-- Witness for C6: with a minimum price of 20 dollars the generated text
contains the `>=` predicate for placeholder 1, and by the same theorem the
bound argument is 2000 cents. -/
theorem claim6_witness :
    ("(cost_per_night) >= $" ++
        Nat.repr (nCity { minimum_price_per_night := some 20 } +
          nOwner { minimum_price_per_night := some 20 } + 1) ++ " ").data <:+:
      (getAllProperties { minimum_price_per_night := some 20 } 10).text.data :=
  ((claim6_price_args_times_100 { minimum_price_per_night := some 20 } 10).1
    20 rfl (by decide)).2

/-- Claim C7: addProperty derives the column list from the record's keys in
the record's own iteration order, so that column i corresponds to placeholder
$i corresponds to argument i, and produces
`INSERT INTO properties (<columns>) VALUES (<placeholders>) RETURNING *;`;
in particular (see the witness) the record with keys name and cost_per_night
and values "Cabin" and 5000 yields the two-column insert with arguments
["Cabin", 5000]. -/
theorem claim7_insert_follows_record_order (property : List (String × SqlVal))
    (hnd : (property.map Prod.fst).Nodup) :
    addProperty property =
      { text := "INSERT INTO properties (" ++ jsJoin ", " (property.map Prod.fst) ++
          ") \n  VALUES (" ++ jsSliceDropLastTwo (valueIndexFrom 0 property.length) ++
          ")\n  RETURNING *;",
        args := property.map Prod.snd } := by
  rw [addProperty_char, jsGet_map_of_nodup property hnd]

/-- Witness for C7: the worked example from the specification, with the
source's literal whitespace. -/
theorem claim7_witness :
    addProperty [("name", SqlVal.vStr "Cabin"), ("cost_per_night", SqlVal.vInt 5000)] =
      { text := "INSERT INTO properties (name, cost_per_night) \n  VALUES ($1, $2)\n  RETURNING *;",
        args := [SqlVal.vStr "Cabin", SqlVal.vInt 5000] } := by
  rw [claim7_insert_follows_record_order
    [("name", SqlVal.vStr "Cabin"), ("cost_per_night", SqlVal.vInt 5000)] (by decide)]
  decide

end LightBnB
